import Mathlib

/-
Verification of the bug_scan_to_fix_agent repository.

The development shallowly embeds the parts of the code base that the
checked properties talk about:
  * src/src/analyzer/multiLangIssueAnalyzer.py : the Issue dataclass with
    its __eq__ / __hash__ contract, the dedup-and-sort tail of
    analyze_reports, and the retry loop of analyze_bug;
  * src/src/fixer/auto_fixer.py : apply_fix, _call_llm and
    _extract_code_block;
  * src/src/validator/validator.py : _validate_python, modelled over a
    miniature semantics of top-level Python statements;
  * src/src/core/engine.py : the per-issue loop of BugFixEngine.run;
  * src/run.py : the exit-code logic of main.

Machine integers do not occur; all strings are Lean Strings, and the
fallible / exception-raising parts of the Python code are embedded with
Except.
-/

/-- Embedding of the Issue dataclass
(src/src/analyzer/multiLangIssueAnalyzer.py lines 12-41).  All eight
fields are carried; __eq__ and __hash__ only look at the first seven. -/
structure Issue where
  language : String
  slug : String
  description : String
  constraints : String
  buggy_code : String
  bug_type : String
  bug_message : String
  fixed_code : String
deriving DecidableEq, Repr

/-- The seven-field tuple that Issue.__hash__ feeds to Python's hash and
that Issue.__eq__ compares field by field; fixed_code is absent. -/
def identityKey (i : Issue) :
    String × String × String × String × String × String × String :=
  (i.language, i.slug, i.description, i.constraints, i.buggy_code,
   i.bug_type, i.bug_message)

/-- Embedding of Issue.__eq__ (lines 31-41): a conjunction of the seven
identity-field comparisons.  The isinstance guard is vacuous here because
the embedding is typed. -/
def issueBeq (a b : Issue) : Bool :=
  a.language == b.language && a.slug == b.slug &&
  a.description == b.description && a.constraints == b.constraints &&
  a.buggy_code == b.buggy_code && a.bug_type == b.bug_type &&
  a.bug_message == b.bug_message

theorem issueBeq_iff (a b : Issue) :
    issueBeq a b = true ↔ identityKey a = identityKey b := by
  simp only [issueBeq, identityKey, Bool.and_eq_true, beq_iff_eq,
    Prod.mk.injEq]
  tauto

/-- Two issues count as distinct for dedup purposes. -/
def keyNe (a b : Issue) : Prop := identityKey a ≠ identityKey b

theorem keyNe_symm : ∀ {a b : Issue}, keyNe a b → keyNe b a :=
  fun h h' => h h'.symm

/-- First-seen-wins deduplication with an accumulator of already seen
elements.  This models the observable behaviour of `list(set(all_issues))`
in analyze_reports (line 79): a CPython set keeps the first-inserted
element of each equality class, and the iteration order is subsequently
erased by the sort, so only the retained representatives matter. -/
def dedupAux (seen : List Issue) : List Issue → List Issue
  | [] => []
  | i :: rest =>
    if seen.any (fun j => issueBeq j i) then dedupAux seen rest
    else i :: dedupAux (i :: seen) rest

def dedup (l : List Issue) : List Issue := dedupAux [] l

/-- Comparison key of the final sort in analyze_reports (line 80):
`sorted(unique_issues, key=lambda x: (x.slug))`. -/
def slugLE (a b : Issue) : Prop := a.slug ≤ b.slug

instance : DecidableRel slugLE :=
  fun a b => inferInstanceAs (Decidable (a.slug ≤ b.slug))

instance : IsTotal Issue slugLE := ⟨fun a b => le_total a.slug b.slug⟩

instance : IsTrans Issue slugLE := ⟨fun _ _ _ hab hbc => le_trans hab hbc⟩

/-- Embedding of the tail of MultiLangIssueAnalyzer.analyze_reports
(lines 77-80).  The argument is the list of successfully parsed Issues of
all reports, in the order the thread-pool workers delivered them; the
function removes duplicates with set semantics and sorts by slug.
Python's sorted is a stable sort, as is insertionSort, so the two agree
on every input. -/
def analyze_reports (collected : List Issue) : List Issue :=
  List.insertionSort slugLE (dedup collected)

theorem dedupAux_pairwise :
    ∀ (l seen : List Issue),
      List.Pairwise keyNe (dedupAux seen l) ∧
      ∀ x ∈ dedupAux seen l, ∀ s ∈ seen, identityKey s ≠ identityKey x := by
  intro l
  induction l with
  | nil => intro seen; simp [dedupAux]
  | cons i rest ih =>
    intro seen
    by_cases h : seen.any (fun j => issueBeq j i) = true
    · simpa [dedupAux, h] using ih seen
    · have hseen : ∀ s ∈ seen, identityKey s ≠ identityKey i := by
        intro s hs hk
        exact h (List.any_eq_true.2 ⟨s, hs, (issueBeq_iff s i).2 hk⟩)
      have ih' := ih (i :: seen)
      constructor
      · simp only [dedupAux, h, if_false, Bool.false_eq_true,
          List.pairwise_cons]
        refine ⟨fun x hx => ?_, ih'.1⟩
        exact ih'.2 x hx i (List.mem_cons_self i seen)
      · intro x hx s hs
        simp only [dedupAux, h, if_false, Bool.false_eq_true,
          List.mem_cons] at hx
        rcases hx with rfl | hx
        · exact hseen s hs
        · exact ih'.2 x hx s (List.mem_cons_of_mem i hs)

theorem dedupAux_subset :
    ∀ (l seen : List Issue) (x : Issue), x ∈ dedupAux seen l → x ∈ l := by
  intro l
  induction l with
  | nil => intro seen x hx; simp [dedupAux] at hx
  | cons i rest ih =>
    intro seen x hx
    by_cases h : seen.any (fun j => issueBeq j i) = true
    · simp only [dedupAux, h, if_true] at hx
      exact List.mem_cons_of_mem i (ih seen x hx)
    · simp only [dedupAux, h, if_false, Bool.false_eq_true,
        List.mem_cons] at hx
      rcases hx with rfl | hx
      · exact List.mem_cons_self x rest
      · exact List.mem_cons_of_mem i (ih (i :: seen) x hx)

theorem dedupAux_covers :
    ∀ (l seen : List Issue) (x : Issue), x ∈ l →
      (∃ s ∈ seen, identityKey s = identityKey x) ∨
      ∃ y ∈ dedupAux seen l, identityKey y = identityKey x := by
  intro l
  induction l with
  | nil => intro seen x hx; simp at hx
  | cons i rest ih =>
    intro seen x hx
    by_cases h : seen.any (fun j => issueBeq j i) = true
    · rcases List.mem_cons.1 hx with rfl | hx'
      · rcases List.any_eq_true.1 h with ⟨s, hs, hbeq⟩
        exact Or.inl ⟨s, hs, (issueBeq_iff s x).1 hbeq⟩
      · simpa [dedupAux, h] using ih seen x hx'
    · rcases List.mem_cons.1 hx with rfl | hx'
      · refine Or.inr ⟨x, ?_, rfl⟩
        simp [dedupAux, h]
      · rcases ih (i :: seen) x hx' with ⟨s, hs, hk⟩ | ⟨y, hy, hk⟩
        · rcases List.mem_cons.1 hs with rfl | hs'
          · refine Or.inr ⟨s, ?_, hk⟩
            simp [dedupAux, h]
          · exact Or.inl ⟨s, hs', hk⟩
        · refine Or.inr ⟨y, ?_, hk⟩
          simp only [dedupAux, h, if_false, Bool.false_eq_true]
          exact List.mem_cons_of_mem i hy

/-- Claim C1: Issue equality (and the hash input used for dedup) is
exactly seven-field identity; fixed_code never influences it, and two
issues identical except for fixed_code deduplicate to the first one. -/
theorem issue_equality_identity_key (a b : Issue) :
    (issueBeq a b = true ↔
      (a.language = b.language ∧ a.slug = b.slug ∧
       a.description = b.description ∧ a.constraints = b.constraints ∧
       a.buggy_code = b.buggy_code ∧ a.bug_type = b.bug_type ∧
       a.bug_message = b.bug_message)) ∧
    (issueBeq a b = true ↔ identityKey a = identityKey b) ∧
    (∀ s t : String,
      issueBeq { a with fixed_code := s } { a with fixed_code := t } = true ∧
      identityKey { a with fixed_code := s } = identityKey a) ∧
    (∀ s t : String,
      dedup [{ a with fixed_code := s }, { a with fixed_code := t }] =
        [{ a with fixed_code := s }]) := by
  refine ⟨?_, issueBeq_iff a b, ?_, ?_⟩
  · simp only [issueBeq_iff, identityKey, Prod.mk.injEq]
  · intro s t
    constructor
    · rw [issueBeq_iff]; rfl
    · rfl
  · intro s t
    have hbeq : issueBeq { a with fixed_code := s }
        { a with fixed_code := t } = true := by
      rw [issueBeq_iff]; rfl
    simp [dedup, dedupAux, hbeq]

/-- Claim C2: for every collected input list, analyze_reports returns a
sequence with pairwise-distinct identity keys, sorted by slug in
non-decreasing order, consisting only of collected issues and covering
every collected identity key (duplicates dropped, a first-seen
representative kept). -/
theorem analyze_reports_dedup_sorted (collected : List Issue) :
    List.Pairwise keyNe (analyze_reports collected) ∧
    List.Sorted slugLE (analyze_reports collected) ∧
    (∀ x ∈ analyze_reports collected, x ∈ collected) ∧
    (∀ x ∈ collected, ∃ y ∈ analyze_reports collected,
      identityKey y = identityKey x) := by
  have hperm : List.Perm (analyze_reports collected) (dedup collected) :=
    List.perm_insertionSort slugLE (dedup collected)
  refine ⟨?_, ?_, ?_, ?_⟩
  · exact (hperm.pairwise_iff (fun h => keyNe_symm h)).2
      (dedupAux_pairwise collected []).1
  · exact List.sorted_insertionSort slugLE (dedup collected)
  · intro x hx
    exact dedupAux_subset collected [] x (hperm.mem_iff.1 hx)
  · intro x hx
    rcases dedupAux_covers collected [] x hx with ⟨s, hs, _⟩ | ⟨y, hy, hk⟩
    · simp at hs
    · exact ⟨y, hperm.mem_iff.2 hy, hk⟩

/-- One of two distinct issues sharing the slug "two-sum"; such issues
arise from two report items with the same slug field but different
description fields (and explicit language / bug_message fields), each
normalized by process_single_item with fixed_code set to "". -/
def issueA : Issue :=
  ⟨"python", "two-sum", "first description", "No constraints",
   "code one", "General", "message one", ""⟩

/-- The second distinct issue sharing the slug "two-sum". -/
def issueB : Issue :=
  ⟨"python", "two-sum", "second description", "No constraints",
   "code two", "General", "message two", ""⟩

/-- An issue whose slug differs from the slug of issueA. -/
def issueC : Issue :=
  ⟨"python", "add-two", "third description", "No constraints",
   "code three", "General", "message three", ""⟩

/-- Claim C3 counterexample: two completion orders of the same two
report items (issueA and issueB share a slug but are distinct issues)
make analyze_reports return different sequences, because the stable sort
by slug keeps the arrival order of equal-slug issues.  Hence the output
order is not fully determined by the input. -/
theorem analyze_reports_order_dependent_cex :
    List.Perm [issueA, issueB] [issueB, issueA] ∧
    analyze_reports [issueA, issueB] ≠ analyze_reports [issueB, issueA] := by
  have hbeqAB : issueBeq issueA issueB = false := by decide
  have hbeqBA : issueBeq issueB issueA = false := by decide
  have h₁ : analyze_reports [issueA, issueB] = [issueA, issueB] := by
    have hd : dedup [issueA, issueB] = [issueA, issueB] := by
      simp [dedup, dedupAux, hbeqAB]
    rw [analyze_reports, hd]
    simp only [List.insertionSort, List.orderedInsert]
    have hle : slugLE issueA issueB := le_of_eq rfl
    rw [if_pos hle]
  have h₂ : analyze_reports [issueB, issueA] = [issueB, issueA] := by
    have hd : dedup [issueB, issueA] = [issueB, issueA] := by
      simp [dedup, dedupAux, hbeqBA]
    rw [analyze_reports, hd]
    simp only [List.insertionSort, List.orderedInsert]
    have hle : slugLE issueB issueA := le_of_eq rfl
    rw [if_pos hle]
  exact ⟨List.Perm.swap issueB issueA [], by
    rw [h₁, h₂]; decide⟩

theorem mem_dedupAux_of_inj :
    ∀ (l seen : List Issue) (x : Issue),
      (∀ a b, a ∈ l → b ∈ l → identityKey a = identityKey b → a = b) →
      x ∈ l → (∀ s ∈ seen, identityKey s ≠ identityKey x) →
      x ∈ dedupAux seen l := by
  intro l
  induction l with
  | nil => intro seen x _ hx _; simp at hx
  | cons i rest ih =>
    intro seen x hinj hx hseen
    have hinj' : ∀ a b, a ∈ rest → b ∈ rest →
        identityKey a = identityKey b → a = b :=
      fun a b ha hb => hinj a b (List.mem_cons_of_mem i ha)
        (List.mem_cons_of_mem i hb)
    by_cases h : seen.any (fun j => issueBeq j i) = true
    · have hxr : x ∈ rest := by
        rcases List.mem_cons.1 hx with rfl | hx'
        · rcases List.any_eq_true.1 h with ⟨s, hs, hbeq⟩
          exact absurd ((issueBeq_iff s x).1 hbeq) (hseen s hs)
        · exact hx'
      simp only [dedupAux, h, if_true]
      exact ih seen x hinj' hxr hseen
    · simp only [dedupAux, h, if_false, Bool.false_eq_true, List.mem_cons]
      by_cases hk : identityKey i = identityKey x
      · rcases List.mem_cons.1 hx with rfl | hx'
        · exact Or.inl rfl
        · exact Or.inl
            (hinj i x (List.mem_cons_self i rest)
              (List.mem_cons_of_mem i hx') hk).symm
      · have hxr : x ∈ rest := by
          rcases List.mem_cons.1 hx with rfl | hx'
          · exact absurd rfl hk
          · exact hx'
        refine Or.inr (ih (i :: seen) x hinj' hxr ?_)
        intro s hs
        rcases List.mem_cons.1 hs with rfl | hs'
        · exact hk
        · exact hseen s hs'

theorem dedup_nodup (l : List Issue) : (dedup l).Nodup :=
  List.Pairwise.imp (fun hk he => hk (by rw [he]))
    (dedupAux_pairwise l []).1

theorem mem_dedup_iff_of_inj (l : List Issue)
    (hinj : ∀ a b, a ∈ l → b ∈ l → identityKey a = identityKey b → a = b)
    (x : Issue) : x ∈ dedup l ↔ x ∈ l :=
  ⟨dedupAux_subset l [] x,
   fun hx => mem_dedupAux_of_inj l [] x hinj hx (by simp)⟩

theorem dedup_perm_of_inj (c₁ c₂ : List Issue) (hp : List.Perm c₁ c₂)
    (hinj : ∀ a b, a ∈ c₁ → b ∈ c₁ → identityKey a = identityKey b → a = b) :
    List.Perm (dedup c₁) (dedup c₂) := by
  have hinj₂ : ∀ a b, a ∈ c₂ → b ∈ c₂ →
      identityKey a = identityKey b → a = b :=
    fun a b ha hb => hinj a b (hp.mem_iff.2 ha) (hp.mem_iff.2 hb)
  refine List.perm_of_nodup_nodup_toFinset_eq (dedup_nodup c₁)
    (dedup_nodup c₂) (List.toFinset.ext fun x => ?_)
  rw [mem_dedup_iff_of_inj c₁ hinj x, mem_dedup_iff_of_inj c₂ hinj₂ x,
    hp.mem_iff]

/-- Strict version of the sort key, used to recover antisymmetry when no
two distinct collected issues share a slug. -/
def slugLT (a b : Issue) : Prop := a.slug < b.slug

instance : IsAntisymm Issue slugLT := ⟨fun _ _ h h' => (lt_asymm h h').elim⟩

theorem sorted_slugLT_of (out : List Issue) (hs : List.Sorted slugLE out)
    (hn : out.Nodup)
    (hinj : ∀ a b, a ∈ out → b ∈ out → a.slug = b.slug → a = b) :
    List.Sorted slugLT out := by
  refine List.Pairwise.imp_of_mem ?_ (List.Pairwise.and hs hn)
  intro a b ha hb hab
  exact lt_of_le_of_ne hab.1 (fun he => hab.2 (hinj a b ha hb he))

/-- Claim C3 (amended): for permuted completion orders of the same items,
analyze_reports yields identical sequences provided no two distinct
collected issues share a slug; the counterexample above shows the proviso
is necessary, so determinism as originally claimed fails for inputs with
repeated slugs. -/
theorem analyze_reports_deterministic_of_unique_slugs
    (c₁ c₂ : List Issue) (hp : List.Perm c₁ c₂)
    (hslug : ∀ a ∈ c₁, ∀ b ∈ c₁, a.slug = b.slug → a = b) :
    analyze_reports c₁ = analyze_reports c₂ := by
  have hinj : ∀ a b, a ∈ c₁ → b ∈ c₁ →
      identityKey a = identityKey b → a = b := by
    intro a b ha hb hk
    exact hslug a ha b hb (congrArg (fun t => t.2.1) hk)
  have hd : List.Perm (dedup c₁) (dedup c₂) := dedup_perm_of_inj c₁ c₂ hp hinj
  have hperm : List.Perm (analyze_reports c₁) (analyze_reports c₂) :=
    ((List.perm_insertionSort slugLE (dedup c₁)).trans hd).trans
      (List.perm_insertionSort slugLE (dedup c₂)).symm
  have hsub₁ : ∀ x ∈ analyze_reports c₁, x ∈ c₁ :=
    (analyze_reports_dedup_sorted c₁).2.2.1
  have hnod₁ : (analyze_reports c₁).Nodup :=
    ((List.perm_insertionSort slugLE (dedup c₁)).nodup_iff).2
      (dedup_nodup c₁)
  have hnod₂ : (analyze_reports c₂).Nodup := (hperm.nodup_iff).1 hnod₁
  have hsub₂ : ∀ x ∈ analyze_reports c₂, x ∈ c₁ :=
    fun x hx => hp.mem_iff.2 ((analyze_reports_dedup_sorted c₂).2.2.1 x hx)
  have hi₁ : ∀ a b, a ∈ analyze_reports c₁ → b ∈ analyze_reports c₁ →
      a.slug = b.slug → a = b :=
    fun a b ha hb => hslug a (hsub₁ a ha) b (hsub₁ b hb)
  have hi₂ : ∀ a b, a ∈ analyze_reports c₂ → b ∈ analyze_reports c₂ →
      a.slug = b.slug → a = b :=
    fun a b ha hb => hslug a (hsub₂ a ha) b (hsub₂ b hb)
  exact List.eq_of_perm_of_sorted hperm
    (sorted_slugLT_of _ (analyze_reports_dedup_sorted c₁).2.1 hnod₁ hi₁)
    (sorted_slugLT_of _ (analyze_reports_dedup_sorted c₂).2.1 hnod₂ hi₂)

/-- Claim C3 witness: the amended determinism theorem applied to the
concrete two-issue input with distinct slugs, in two completion orders. -/
theorem analyze_reports_deterministic_witness :
    analyze_reports [issueC, issueA] = analyze_reports [issueA, issueC] :=
  analyze_reports_deterministic_of_unique_slugs [issueC, issueA]
    [issueA, issueC] (List.Perm.swap issueA issueC [])
    (by decide)

/-- Outcome of one HTTP attempt against the oracle, as the two retry
loops distinguish them: a 200 whose body parses, a 200 whose body fails
to parse, a 429, any other status code, or a raised request exception. -/
inductive OracleResp
  | ok (content : String)
  | okBadBody
  | rateLimited
  | otherStatus (code : Nat)
  | transportError
deriving DecidableEq, Repr

/-- The attempt ceiling shared by both loops: max_retries = 5 in
AutoFixer._call_llm (line 72) and in analyze_bug (line 228). -/
def maxRetries : Nat := 5

/-- Embedding of the retry loop of AutoFixer._call_llm
(src/src/fixer/auto_fixer.py lines 74-118).  The first component is the
returned string, the second the number of oracle attempts actually made.
A 200 returns the parsed content (or the empty string when the body does
not parse); a 429 sleeps and retries; ANY OTHER STATUS returns the empty
string immediately; an exception sleeps and retries; falling out of the
loop returns the empty string. -/
def callLlmGo (oracle : Nat → OracleResp) : Nat → Nat → String × Nat
  | _, 0 => ("", 0)
  | attempt, fuel + 1 =>
    match oracle attempt with
    | .ok c => (c, 1)
    | .okBadBody => ("", 1)
    | .rateLimited =>
      ((callLlmGo oracle (attempt + 1) fuel).1,
       (callLlmGo oracle (attempt + 1) fuel).2 + 1)
    | .otherStatus _ => ("", 1)
    | .transportError =>
      ((callLlmGo oracle (attempt + 1) fuel).1,
       (callLlmGo oracle (attempt + 1) fuel).2 + 1)

def call_llm (oracle : Nat → OracleResp) : String :=
  (callLlmGo oracle 0 maxRetries).1

def call_llm_attempts (oracle : Nat → OracleResp) : Nat :=
  (callLlmGo oracle 0 maxRetries).2

/-- Embedding of the retry loop of MultiLangIssueAnalyzer.analyze_bug
(src/src/analyzer/multiLangIssueAnalyzer.py lines 230-271).  Unlike
_call_llm, a non-200 non-429 status SLEEPS AND RETRIES (lines 259-263),
and exhausting the attempts returns the fixed failure string. -/
def analyzeBugGo (oracle : Nat → OracleResp) : Nat → Nat → String × Nat
  | _, 0 => ("Failed to analyze after retries", 0)
  | attempt, fuel + 1 =>
    match oracle attempt with
    | .ok c => (c, 1)
    | .okBadBody => ("Analysis format error", 1)
    | .rateLimited =>
      ((analyzeBugGo oracle (attempt + 1) fuel).1,
       (analyzeBugGo oracle (attempt + 1) fuel).2 + 1)
    | .otherStatus _ =>
      ((analyzeBugGo oracle (attempt + 1) fuel).1,
       (analyzeBugGo oracle (attempt + 1) fuel).2 + 1)
    | .transportError =>
      ((analyzeBugGo oracle (attempt + 1) fuel).1,
       (analyzeBugGo oracle (attempt + 1) fuel).2 + 1)

def analyze_bug (oracle : Nat → OracleResp) : String :=
  (analyzeBugGo oracle 0 maxRetries).1

def analyze_bug_attempts (oracle : Nat → OracleResp) : Nat :=
  (analyzeBugGo oracle 0 maxRetries).2

/-- An explanation oracle that returns HTTP 500 on the first attempt and
a successful response on every later attempt. -/
def oracle500then200 : Nat → OracleResp :=
  fun n => if n = 0 then OracleResp.otherStatus 500 else OracleResp.ok "recovered"

/-- Claim C5 counterexample: in analyze_bug, a non-200 non-429 status
does not abort the loop — against an oracle answering 500 then 200 the
call makes a second attempt and returns its content instead of failing. -/
theorem analyze_bug_retries_other_status_cex :
    oracle500then200 0 = OracleResp.otherStatus 500 ∧
    analyze_bug oracle500then200 = "recovered" ∧
    analyze_bug_attempts oracle500then200 = 2 := by
  refine ⟨rfl, rfl, rfl⟩

/-- Claim C5 (amended): the Repair Client's _call_llm does abort
immediately on a status that is neither 200 nor 429, returning the empty
string after that single attempt; but the explanation call analyze_bug
does not follow identical mechanics — it consumes the failed attempt and
keeps retrying from the next one. -/
theorem retry_status_handling (oracle : Nat → OracleResp) (code : Nat)
    (h : oracle 0 = OracleResp.otherStatus code) :
    call_llm oracle = "" ∧ call_llm_attempts oracle = 1 ∧
    analyze_bug oracle = (analyzeBugGo oracle 1 (maxRetries - 1)).1 ∧
    analyze_bug_attempts oracle =
      (analyzeBugGo oracle 1 (maxRetries - 1)).2 + 1 := by
  refine ⟨?_, ?_, ?_, ?_⟩ <;>
    simp [call_llm, call_llm_attempts, analyze_bug, analyze_bug_attempts,
      maxRetries, callLlmGo, analyzeBugGo, h]

/-- Claim C5 witness: the amended theorem applied to the concrete oracle
that answers 500 first and succeeds afterwards. -/
theorem retry_status_handling_witness :
    call_llm oracle500then200 = "" ∧
    call_llm_attempts oracle500then200 = 1 ∧
    analyze_bug oracle500then200 =
      (analyzeBugGo oracle500then200 1 (maxRetries - 1)).1 ∧
    analyze_bug_attempts oracle500then200 =
      (analyzeBugGo oracle500then200 1 (maxRetries - 1)).2 + 1 :=
  retry_status_handling oracle500then200 500 rfl

theorem callLlmGo_attempts_le (oracle : Nat → OracleResp) :
    ∀ (fuel attempt : Nat), (callLlmGo oracle attempt fuel).2 ≤ fuel := by
  intro fuel
  induction fuel with
  | zero => intro attempt; simp [callLlmGo]
  | succ f ih =>
    intro attempt
    cases h : oracle attempt <;>
      simp [callLlmGo, h, Nat.succ_le_succ, ih (attempt + 1)]

theorem callLlmGo_exhaust (oracle : Nat → OracleResp)
    (h : (∀ n, oracle n = OracleResp.rateLimited) ∨
         (∀ n, oracle n = OracleResp.transportError)) :
    ∀ (fuel attempt : Nat), callLlmGo oracle attempt fuel = ("", fuel) := by
  intro fuel
  induction fuel with
  | zero => intro attempt; simp [callLlmGo]
  | succ f ih =>
    intro attempt
    rcases h with h | h <;> simp [callLlmGo, h attempt, ih (attempt + 1)]

/-- Claim C6: against an oracle that always rate-limits (or always fails
at transport level), _call_llm terminates after exactly its hard cap of
maxRetries = 5 attempts — never more than 5 for any oracle — and returns
the empty string to its caller instead of raising. -/
theorem call_llm_retry_ceiling (oracle : Nat → OracleResp)
    (h : (∀ n, oracle n = OracleResp.rateLimited) ∨
         (∀ n, oracle n = OracleResp.transportError)) :
    call_llm oracle = "" ∧ call_llm_attempts oracle = maxRetries ∧
    maxRetries = 5 ∧
    ∀ oracle' : Nat → OracleResp, call_llm_attempts oracle' ≤ 5 := by
  refine ⟨?_, ?_, rfl, fun oracle' => callLlmGo_attempts_le oracle' maxRetries 0⟩
  · simp [call_llm, callLlmGo_exhaust oracle h]
  · simp [call_llm_attempts, callLlmGo_exhaust oracle h]

/-- An oracle that rate-limits every attempt. -/
def always429 : Nat → OracleResp := fun _ => OracleResp.rateLimited

/-- Claim C6 witness: the retry-ceiling theorem applied to the concrete
always-rate-limited oracle. -/
theorem call_llm_retry_ceiling_witness :
    call_llm always429 = "" ∧ call_llm_attempts always429 = maxRetries ∧
    maxRetries = 5 ∧
    ∀ oracle' : Nat → OracleResp, call_llm_attempts oracle' ≤ 5 :=
  call_llm_retry_ceiling always429 (Or.inl fun _ => rfl)

/-- Word characters of the regex class backslash-w, as matched by the
optional language tag in the fence pattern of _extract_code_block. -/
def isWordChar (c : Char) : Bool := c.isAlphanum || c = '_'

/-- Whitespace stripped by Python's str.strip on the ASCII snippets the
fixer handles. -/
def isStripChar (c : Char) : Bool :=
  c = ' ' || c = '\t' || c = '\n' || c = '\r' || c = '\x0b' || c = '\x0c'

/-- Python str.strip: drop whitespace from both ends. -/
def stripChars (cs : List Char) : List Char :=
  ((cs.dropWhile isStripChar).reverse.dropWhile isStripChar).reverse

/-- Lazy body match of the fence pattern: the shortest character run up
to the next closing triple backtick, or none when the fence is never
closed. -/
def takeUntilFence : List Char → Option (List Char)
  | [] => none
  | '`' :: '`' :: '`' :: _ => some []
  | c :: rest => (takeUntilFence rest).map (fun inner => c :: inner)

/-- Attempt to complete a match right after an opening triple backtick:
skip an optional word-character language tag, require an optional CR then
a LF, then take the lazy body. -/
def tryMatchAt (cs : List Char) : Option (List Char) :=
  match (cs.dropWhile isWordChar) with
  | '\r' :: '\n' :: body => takeUntilFence body
  | '\n' :: body => takeUntilFence body
  | _ => none

/-- Left-to-right scan of re.search for the pattern of
_extract_code_block (src/src/fixer/auto_fixer.py line 188): at each
position, try to match an opening triple backtick followed by the rest of
the pattern; on failure resume the scan one character later. -/
def findFence : List Char → Option (List Char)
  | [] => none
  | c :: rest =>
    if c = '`' then
      match rest with
      | '`' :: '`' :: rest2 =>
        match tryMatchAt rest2 with
        | some inner => some inner
        | none => findFence rest
      | _ => findFence rest
    else findFence rest

/-- Embedding of AutoFixer._extract_code_block (lines 186-194): the first
fenced code block, stripped; or the whole text, stripped, when no fenced
block is found. -/
def extract_code_block (text : String) : String :=
  match findFence text.data with
  | some inner => String.mk (stripChars inner)
  | none => String.mk (stripChars text.data)

/-- Embedding of AutoFixer.apply_fix (lines 27-57).  The argument raw is
what _call_llm returned; prevFixed is issue.fixed_code before the call.
The result is the returned boolean paired with issue.fixed_code after the
call: a truthy (non-empty) raw response stores the extracted block and
returns True, an empty response leaves fixed_code untouched and returns
False. -/
def apply_fix (raw : String) (prevFixed : String) : Bool × String :=
  if raw = "" then (false, prevFixed)
  else (true, extract_code_block raw)

/-- A non-empty oracle response whose only fenced block contains nothing
but whitespace. -/
def wsFencedResponse : String := "```\n \n```"

/-- Claim C10: apply_fix reports success exactly when the raw oracle
response is non-empty — not when the extracted patch is non-empty — and
on the whitespace-fenced response it returns True while storing the empty
string into fixed_code. -/
theorem apply_fix_truthiness :
    (∀ raw prevFixed : String,
      ((apply_fix raw prevFixed).1 = true ↔ raw ≠ "")) ∧
    wsFencedResponse ≠ "" ∧
    (apply_fix wsFencedResponse "").1 = true ∧
    (apply_fix wsFencedResponse "").2 = "" := by
  refine ⟨fun raw prevFixed => ?_, by decide, by decide, by decide⟩
  by_cases h : raw = "" <;> simp [apply_fix, h]

/-- Miniature semantics of the top-level Python statements that exec
runs in _validate_python.  Only what name resolution needs is modelled:
a def statement binds the function name WITHOUT executing its body (body
names are resolved only when the function is called, which never happens
here); an assignment evaluates the names referenced by its right-hand
side before binding its target; any other runtime failure during a
top-level statement is a non-NameError exception. -/
inductive PyStmt
  | defFun (name : String) (bodyRefs : List String)
  | assign (target : String) (refs : List String)
  | raiseOther (msg : String)
deriving DecidableEq, Repr

/-- Result of exec(code, \x7b\x7d) on the statement list. -/
inductive ExecResult
  | ok
  | nameError (missing : String)
  | otherError (msg : String)
deriving DecidableEq, Repr

/-- CPython executes top-level statements in order in the given
namespace: def binds without running the body; an assignment raises
NameError on the first unbound referenced name; raiseOther raises a
non-NameError exception. -/
def execStmts (env : List String) : List PyStmt → ExecResult
  | [] => ExecResult.ok
  | PyStmt.defFun name _ :: rest => execStmts (name :: env) rest
  | PyStmt.assign target refs :: rest =>
    match refs.find? (fun r => !env.contains r) with
    | some missing => ExecResult.nameError missing
    | none => execStmts (target :: env) rest
  | PyStmt.raiseOther msg :: _ => ExecResult.otherError msg

/-- Embedding of Validator._validate_python
(src/src/validator/validator.py lines 36-63).  parses is the outcome of
ast.parse; when it parses, the statement list is executed and only a
NameError makes the check fail — any other runtime error passes. -/
def validate_python (parses : Bool) (stmts : List PyStmt)
    (env : List String) : Bool :=
  if !parses then false
  else
    match execStmts env stmts with
    | ExecResult.ok => true
    | ExecResult.nameError _ => false
    | ExecResult.otherError _ => true

/-- Embedding of the python path of Validator.run_tests (lines 14-27):
an empty fixed_code fails immediately, otherwise the snippet is handed to
_validate_python.  parses and stmts are the Python-semantics view of the
fixed_code string. -/
def run_tests_python (fixedCode : String) (parses : Bool)
    (stmts : List PyStmt) (env : List String) : Bool :=
  if fixedCode = "" then false else validate_python parses stmts env

/-- A builtins namespace for the snippets below; collections.Counter is
not a builtin, so it is absent. -/
def pyBuiltins : List String := ["len", "range", "print", "int", "str"]

/-- The statement-level view of the snippet def f(): return Counter() —
one def whose body references the unbound name Counter. -/
def counterSnippet : List PyStmt := [PyStmt.defFun "f" ["Counter"]]

/-- The statement-level view of the snippet def f(): return 1/0 — one
def whose body references no names and only fails when called. -/
def div0Snippet : List PyStmt := [PyStmt.defFun "f" []]

/-- The statement-level view of the snippet x = Counter() — a top-level
assignment that evaluates the unbound name Counter at exec time. -/
def topLevelCounterSnippet : List PyStmt := [PyStmt.assign "x" ["Counter"]]

/-- Claim C4 counterexample: the snippet def f(): return Counter()
parses and exec merely binds f without running the body, so no NameError
is raised and the validator returns pass — the claim demands fail. -/
theorem validate_python_def_body_cex :
    run_tests_python "def f(): return Counter()" true counterSnippet
      pyBuiltins = true ∧
    execStmts pyBuiltins counterSnippet = ExecResult.ok := by
  refine ⟨?_, rfl⟩
  decide

/-- Claim C4 (amended): for a python-variant issue with non-empty
fixed_code the validator fails exactly when the code fails to parse or
when executing the top-level statements raises a NameError; since a def
statement binds its name without executing its body, both
def f(): return Counter() (missing import) and def f(): return 1/0 pass,
while a NameError evaluated at exec time, such as x = Counter(), fails,
and a non-NameError runtime error passes. -/
theorem validate_python_asymmetry (fixedCode : String) (parses : Bool)
    (stmts : List PyStmt) (env : List String) :
    (run_tests_python fixedCode parses stmts env = true ↔
      (fixedCode ≠ "" ∧ parses = true ∧
       ∀ m, execStmts env stmts ≠ ExecResult.nameError m)) ∧
    run_tests_python "def f(): return Counter()" true counterSnippet
      pyBuiltins = true ∧
    run_tests_python "def f(): return 1/0" true div0Snippet
      pyBuiltins = true ∧
    run_tests_python "x = Counter()" true topLevelCounterSnippet
      pyBuiltins = false ∧
    validate_python true [PyStmt.raiseOther "ZeroDivisionError"]
      pyBuiltins = true := by
  refine ⟨?_, by decide, by decide, by decide, by decide⟩
  by_cases hf : fixedCode = ""
  · simp [run_tests_python, hf]
  · cases parses with
    | false => simp [run_tests_python, validate_python, hf]
    | true =>
      simp only [run_tests_python, if_neg hf, validate_python,
        Bool.not_true, if_neg (by simp : ¬false = true)]
      cases hex : execStmts env stmts <;>
        simp [hex, hf]

/-- One reporter record, as Reporter.add_item stores it for an issue:
slug, status ("fixed" or "failed"), the reason of the detail dict, and
the fixed_code recorded for audit. -/
structure RunOutcome where
  slug : String
  status : String
  reason : Option String
  fixedCode : String
deriving DecidableEq, Repr

/-- Result of the per-issue loop of BugFixEngine.run: the fixed and
failed counters, the reporter's item list, and the index of the next
repair-oracle call (so callsAfter minus the starting index counts the
apply_fix invocations made). -/
structure EngineResult where
  fixedCount : Nat
  failedCount : Nat
  outcomes : List RunOutcome
  callsAfter : Nat
deriving DecidableEq, Repr

/-- The body of one iteration of the loop of BugFixEngine.run
(src/src/core/engine.py lines 74-135): one apply_fix call (raw is what
that single call's _call_llm returned), then on success one validation,
and the add_item record chosen by the branch taken.  The failure reason
strings are the literal strings of engine.py lines 122 and 132. -/
def processIssue (validate : Issue → Bool) (raw : String) (i : Issue) :
    RunOutcome :=
  match apply_fix raw i.fixed_code with
  | (true, fc) =>
    if validate { i with fixed_code := fc } then
      RunOutcome.mk i.slug "fixed" none fc
    else
      RunOutcome.mk i.slug "failed" (some "validation failed") fc
  | (false, fc) =>
    RunOutcome.mk i.slug "failed"
      (some "auto-fixer failed to generate code") fc

/-- Embedding of the loop of BugFixEngine.run.  maxIterations is the
constructor parameter of BugFixEngine (line 21); the loop never reads it
(it is only printed in the banner).  fix maps the index of an
apply_fix/_call_llm invocation to the raw oracle text it returns, so the
calls counter threading shows exactly how many repair calls each issue
consumes. -/
def engine_run (maxIterations : Nat) (fix : Nat → String)
    (validate : Issue → Bool) : List Issue → Nat → EngineResult
  | [], calls => EngineResult.mk 0 0 [] calls
  | i :: rest, calls =>
    let out := processIssue validate (fix calls) i
    let r := engine_run maxIterations fix validate rest (calls + 1)
    if out.status = "fixed" then
      EngineResult.mk (r.fixedCount + 1) r.failedCount (out :: r.outcomes)
        r.callsAfter
    else
      EngineResult.mk r.fixedCount (r.failedCount + 1) (out :: r.outcomes)
        r.callsAfter

/-- A repair oracle whose every call returns the empty string. -/
def emptyFixer : Nat → String := fun _ => ""

/-- A validator that accepts everything. -/
def passValidator : Issue → Bool := fun _ => true

/-- Claim C7 counterexample: when the repair call returns empty, the
recorded failure reason is the literal "auto-fixer failed to generate
code" of engine.py line 132, not "repair generation failed" as claimed. -/
theorem engine_reason_string_cex :
    (engine_run 3 emptyFixer passValidator [issueA] 0).outcomes =
      [RunOutcome.mk "two-sum" "failed"
        (some "auto-fixer failed to generate code") ""] ∧
    RunOutcome.mk "two-sum" "failed"
        (some "auto-fixer failed to generate code") "" ≠
      RunOutcome.mk "two-sum" "failed"
        (some "repair generation failed") "" := by
  exact ⟨rfl, by decide⟩

/-- Claim C7 (amended): per issue the engine makes exactly one repair
call whatever max_iterations is configured, the whole run result is
independent of max_iterations, and an empty repair result records the
issue as failed with reason "auto-fixer failed to generate code" (the
code's literal string; the spec's quoted "repair generation failed" does
not occur) with no second attempt for that issue. -/
theorem engine_single_attempt (m m' : Nat) (fix : Nat → String)
    (validate : Issue → Bool) (issues : List Issue) (calls : Nat) :
    (engine_run m fix validate issues calls).callsAfter =
      calls + issues.length ∧
    engine_run m fix validate issues calls =
      engine_run m' fix validate issues calls ∧
    (∀ i rest, issues = i :: rest → fix calls = "" →
      ∃ outs, (engine_run m fix validate issues calls).outcomes =
        RunOutcome.mk i.slug "failed"
          (some "auto-fixer failed to generate code") i.fixed_code ::
          outs) := by
  refine ⟨?_, ?_, ?_⟩
  · induction issues generalizing calls with
    | nil => simp [engine_run]
    | cons i rest ih =>
      simp only [engine_run, List.length_cons]
      split <;> simp [ih (calls + 1)] <;> omega
  · induction issues generalizing calls with
    | nil => rfl
    | cons i rest ih =>
      simp only [engine_run, ih (calls + 1)]
  · rintro i rest rfl hfix
    have hout : processIssue validate (fix calls) i =
        RunOutcome.mk i.slug "failed"
          (some "auto-fixer failed to generate code") i.fixed_code := by
      rw [hfix]; simp [processIssue, apply_fix]
    refine ⟨(engine_run m fix validate rest (calls + 1)).outcomes, ?_⟩
    simp only [engine_run, hout]
    rw [if_neg (by decide : ¬("failed" = "fixed"))]

/-- Claim C7 witness: the single-attempt theorem applied to one concrete
issue whose repair call returns empty, with two different values of
max_iterations. -/
theorem engine_single_attempt_witness :
    (engine_run 3 emptyFixer passValidator [issueA] 0).callsAfter =
      0 + [issueA].length ∧
    engine_run 3 emptyFixer passValidator [issueA] 0 =
      engine_run 7 emptyFixer passValidator [issueA] 0 ∧
    ∃ outs, (engine_run 3 emptyFixer passValidator [issueA] 0).outcomes =
      RunOutcome.mk issueA.slug "failed"
        (some "auto-fixer failed to generate code") issueA.fixed_code ::
        outs :=
  ⟨(engine_single_attempt 3 7 emptyFixer passValidator [issueA] 0).1,
   (engine_single_attempt 3 7 emptyFixer passValidator [issueA] 0).2.1,
   (engine_single_attempt 3 7 emptyFixer passValidator [issueA] 0).2.2
     issueA [] rfl rfl⟩

/-- The per-issue step of BugFixEngine.run with exception flow made
explicit: the repair client and the validator may raise (Except.error
carries the Python exception rendered as a string).  run (lines 74-135)
installs no try/except around its loop body, so the step merely threads
errors outward. -/
def runExcStep (fix : Issue → Except String String)
    (validate : Issue → Except String Bool) (i : Issue) :
    Except String RunOutcome :=
  match fix i with
  | Except.error e => Except.error e
  | Except.ok raw =>
    match apply_fix raw i.fixed_code with
    | (true, fc) =>
      match validate { i with fixed_code := fc } with
      | Except.error e => Except.error e
      | Except.ok true => Except.ok (RunOutcome.mk i.slug "fixed" none fc)
      | Except.ok false =>
        Except.ok (RunOutcome.mk i.slug "failed" (some "validation failed") fc)
    | (false, fc) =>
      Except.ok (RunOutcome.mk i.slug "failed"
        (some "auto-fixer failed to generate code") fc)

/-- Embedding of the whole loop of BugFixEngine.run under the explicit
exception flow: with no handler in run, an exception escaping any
component aborts the iteration, skips every remaining issue, and
propagates out of the engine (run.py only catches it at top level and
exits without the engine's report). -/
def run_exc (fix : Issue → Except String String)
    (validate : Issue → Except String Bool) :
    List Issue → Except String (Nat × Nat × List RunOutcome)
  | [] => Except.ok (0, 0, [])
  | i :: rest =>
    match runExcStep fix validate i with
    | Except.error e => Except.error e
    | Except.ok out =>
      match run_exc fix validate rest with
      | Except.error e => Except.error e
      | Except.ok (f, fl, outs) =>
        if out.status = "fixed" then Except.ok (f + 1, fl, out :: outs)
        else Except.ok (f, fl + 1, out :: outs)

/-- A repair client that always succeeds with a fenced patch. -/
def okFixer : Issue → Except String String :=
  fun _ => Except.ok "```\npatched\n```"

/-- A validator that raises an unclassified exception, as
_validate_cpp's temp-file handling can (an OSError outside its
try block). -/
def throwingValidator : Issue → Except String Bool :=
  fun _ => Except.error "OSError: temp file creation failed"

/-- A validator that accepts everything without raising. -/
def okValidator : Issue → Except String Bool := fun _ => Except.ok true

/-- Claim C9 counterexample: an unclassified exception raised by the
validator while processing the first of two issues aborts the whole run
— the result is the propagated error, no outcome is recorded for either
issue and the second issue is never processed, instead of the claimed
catch-mark-continue behaviour. -/
theorem run_exc_abort_cex :
    run_exc okFixer throwingValidator [issueA, issueC] =
      Except.error "OSError: temp file creation failed" := rfl

/-- Claim C9 (amended): exceptions raised inside the repair client's
HTTP call and inside the python validation branch are swallowed within
those components, but the orchestrator loop itself has no handler: an
unclassified exception escaping a component while processing an issue
makes the whole run abort with that exception, regardless of how many
issues remain; only when every per-issue step returns normally does the
run complete with one recorded outcome per issue. -/
theorem run_exc_propagation (fix : Issue → Except String String)
    (validate : Issue → Except String Bool) :
    (∀ i rest e, runExcStep fix validate i = Except.error e →
      run_exc fix validate (i :: rest) = Except.error e) ∧
    (∀ issues : List Issue,
      (∀ j ∈ issues, ∃ o, runExcStep fix validate j = Except.ok o) →
      ∃ f fl outs, run_exc fix validate issues = Except.ok (f, fl, outs) ∧
        outs.length = issues.length) := by
  constructor
  · intro i rest e h
    simp [run_exc, h]
  · intro issues
    induction issues with
    | nil => intro _; exact ⟨0, 0, [], rfl, rfl⟩
    | cons i rest ih =>
      intro hok
      obtain ⟨o, ho⟩ := hok i (List.mem_cons_self i rest)
      obtain ⟨f, fl, outs, hrest, hlen⟩ :=
        ih (fun j hj => hok j (List.mem_cons_of_mem i hj))
      by_cases hst : o.status = "fixed"
      · exact ⟨f + 1, fl, o :: outs, by simp [run_exc, ho, hrest, hst],
          by simp [hlen]⟩
      · exact ⟨f, fl + 1, o :: outs, by simp [run_exc, ho, hrest, hst],
          by simp [hlen]⟩

/-- Claim C9 witness: the propagation theorem applied to the concrete
throwing validator on two issues, and to the non-throwing validator on
one issue. -/
theorem run_exc_propagation_witness :
    run_exc okFixer throwingValidator [issueA, issueC] =
      Except.error "OSError: temp file creation failed" ∧
    ∃ f fl outs, run_exc okFixer okValidator [issueA] =
      Except.ok (f, fl, outs) ∧ outs.length = [issueA].length :=
  ⟨(run_exc_propagation okFixer throwingValidator).1 issueA [issueC]
      "OSError: temp file creation failed" rfl,
   (run_exc_propagation okFixer okValidator).2 [issueA]
     (by
       intro j hj
       rw [List.mem_singleton] at hj
       subst hj
       exact ⟨RunOutcome.mk issueA.slug "fixed" none "patched", rfl⟩)⟩

/-- A Python value of the tuple returned by BugFixEngine.run: the
counters are ints, the two report payloads are strings. -/
inductive PyVal
  | int (n : Nat)
  | str (s : String)
deriving DecidableEq, Repr

/-- The tuple literally returned by BugFixEngine.run (engine.py line
159): return fixed, failed, report_txt, report_json — four components. -/
def engine_run_return (fixed failed : Nat) (reportTxt reportJson : String) :
    List PyVal :=
  [PyVal.int fixed, PyVal.int failed, PyVal.str reportTxt,
   PyVal.str reportJson]

/-- Python tuple unpacking into five targets (run.py line 123): succeeds
only on a five-element tuple, otherwise raises ValueError. -/
def unpack5 (vs : List PyVal) :
    Except String (PyVal × PyVal × PyVal × PyVal × PyVal) :=
  match vs with
  | [a, b, c, d, e] => Except.ok (a, b, c, d, e)
  | _ => Except.error "ValueError: not enough values to unpack (expected 5)"

/-- The exit decision of run.py lines 126-129 on the unpacked failed
value; comparing a non-int with 0 would itself raise, reaching the
blanket except, hence exit 1 in that arm too. -/
def exitIfFailed (v : PyVal) : Nat :=
  match v with
  | PyVal.int f => if f > 0 then 1 else 0
  | PyVal.str _ => 1

/-- Embedding of the tail of main (src/run.py lines 122-134): unpack the
value returned by engine.run into five variables inside a try block whose
blanket except exits with code 1; on success exit 0 when failed is 0 and
1 otherwise. -/
def main_exit_code (fixed failed : Nat) (reportTxt reportJson : String) :
    Nat :=
  match unpack5 (engine_run_return fixed failed reportTxt reportJson) with
  | Except.ok (_, b, _, _, _) => exitIfFailed b
  | Except.error _ => 1

/-- Claim C8: whatever aggregate the engine produced — total_failed = 0
included — main exits with the failure code, because unpacking the
four-element tuple of engine.run into five variables raises ValueError,
which the blanket except of run.py turns into sys.exit(1); the claimed
exit-success-iff-no-failures convention never holds. -/
theorem main_exit_always_failure (fixed failed : Nat)
    (reportTxt reportJson : String) :
    main_exit_code fixed failed reportTxt reportJson = 1 := rfl
